import Mathlib

/-!
Shallow embedding of `audeep/backend/parsers/koe.py` (class `KoeParser`).

The file system visible to the parser is modelled as a snapshot value: the
list of regular file names in the base directory and, if the file
`metadata.tsv` exists, its parsed tabular content.  The parser object is a
record of the cached attributes set in `__init__`; each method is a function
from parser state and file-system snapshot to a result paired with the new
parser state.  Methods that may raise `IOError` return `Except`.

Per the metadata table format, a row carries string `id`, `filename` and
`label` fields, an integer `label_enum` code and a non-negative integer
`fold` index.
-/

namespace Audeep

/-- Modelled from the spec: split marker for one cross-validation fold —
either held out (VALID) or used for training (TRAIN).
(`audeep.backend.data.data_set.Split` is not part of the sources.) -/
inductive Split where
  | TRAIN
  | VALID
deriving DecidableEq, Repr

/-- Modelled from the spec: the partition field of a record is an unset
placeholder, populated by a downstream collaborator; we only need a type
so that `none` can represent the unset field. -/
inductive Partition where
  | TRAIN
  | DEVEL
  | TEST
deriving DecidableEq, Repr

/-- One data row of `metadata.tsv`: `(id, filename, label, label_enum, fold)`. -/
structure Row where
  sid : String
  filename : String
  label : String
  label_enum : Int
  fold : Nat
deriving DecidableEq, Repr

/-- The parsed content of `metadata.tsv`: the header row and the data rows. -/
structure Table where
  header : List String
  rows : List Row
deriving DecidableEq, Repr

/-- Snapshot of the data set base directory at the time of a call:
the names of the regular files it contains, and the parsed content of
`metadata.tsv` when that file exists (`none` = the file is absent). -/
structure FileSystem where
  diskFiles : List String
  metadata : Option Table
deriving DecidableEq, Repr

/-- Modelled from the spec: the `_InstanceMetadata` record produced for each
instance (`audeep.backend.parsers.base` is not part of the sources): resolved
path, filename, nominal and numeric label, split vector, partition field. -/
structure InstanceMetadata where
  path : String
  filename : String
  label_nominal : String
  label_numeric : Int
  cv_folds : List Split
  partition : Option Partition
deriving DecidableEq, Repr

/-- Errors raised by the accessors: `IOError` with its message. -/
inductive PError where
  | ioError (msg : String)
deriving DecidableEq, Repr

/-- The mutable attributes of a `KoeParser` object (`__init__`). -/
structure KoeParser where
  basedir : String
  _data : Option (List Row)
  _metadata : Option Table
  _label_map_cache : Option (List (String × Int))
  _can_parse_cache : Option Bool
  _numfolds : Option Nat
deriving DecidableEq, Repr

/-- `KoeParser.__init__`: every cache attribute starts as `None`. -/
def initParser (basedir : String) : KoeParser :=
  { basedir := basedir
    _data := none
    _metadata := none
    _label_map_cache := none
    _can_parse_cache := none
    _numfolds := none }

/-- The fixed header required of `metadata.tsv`. -/
def expectedHeader : List String := ["id", "filename", "label", "label_enum", "fold"]

/-- Python string comparison `a <= b`: lexicographic by code point
(structural over the character lists, so that it evaluates by `decide`). -/
def charListLe : List Char → List Char → Bool
  | [], _ => true
  | _ :: _, [] => false
  | c :: cs, d :: ds => if c < d then true else if d < c then false else charListLe cs ds

/-- Python `a <= b` on the names being sorted. -/
def strLe (a b : String) : Bool := charListLe a.data b.data

/-- Python `name.lower()` (ASCII lower-casing of each character). -/
def strToLower (s : String) : String := ⟨s.data.map Char.toLower⟩

/-- Python `s.endswith(suffix)`. -/
def strEndsWith (s suffix : String) : Bool := suffix.data.isSuffixOf s.data

/-- Python `s.startswith(p)`. -/
def strStartsWith (s p : String) : Bool := p.data.isPrefixOf s.data

/-- `file.name.lower().endswith(".wav")`. -/
def isWavName (n : String) : Bool := strEndsWith (strToLower n) ".wav"

/-- Insert a name into a name-sorted list (ascending). -/
def insertSorted (x : String) : List String → List String
  | [] => [x]
  | y :: ys => if strLe x y then x :: y :: ys else y :: insertSorted x ys

/-- `sorted(..., key=lambda x: x.name)`: sort names ascending. -/
def sortByName (l : List String) : List String := l.foldr insertSorted []

/-- The `files` / `file_names` computation of `can_parse`: regular files whose
name ends case-insensitively in `.wav`, sorted by name. -/
def wavFileNames (fs : FileSystem) : List String :=
  sortByName (fs.diskFiles.filter isWavName)

/-- Python `set(a) != set(b)` negated: `true` iff the two lists hold the same
set of elements. -/
def listSetEq (a b : List String) : Bool :=
  a.all (fun x => b.contains x) && b.all (fun x => a.contains x)

/-- One step of the label-map loop: `if label not in cache: cache[label] = label_enum`
(Python dicts keep insertion order; we model the dict as an association list,
looked up front-to-back). -/
def labelMapStep (acc : List (String × Int)) (r : Row) : List (String × Int) :=
  if acc.any (fun e => e.1 == r.label) then acc else acc ++ [(r.label, r.label_enum)]

/-- The label-map loop of `can_parse` over the rows, in table order. -/
def labelMapLoop (acc : List (String × Int)) : List Row → List (String × Int)
  | [] => acc
  | r :: rs => labelMapLoop (labelMapStep acc r) rs

/-- One step of the fold-count loop: `if fold > self._numfolds: self._numfolds = fold`. -/
def numFoldsStep (acc : Nat) (r : Row) : Nat := if r.fold > acc then r.fold else acc

/-- The fold-count loop of `can_parse` (accumulator starts at `0`;
`can_parse` adds `1` afterwards). -/
def numFoldsLoop (acc : Nat) : List Row → Nat
  | [] => acc
  | r :: rs => numFoldsLoop (numFoldsStep acc r) rs

/-- `KoeParser.can_parse`: memoized validation.  Returns the boolean result
and the parser state after the call. -/
def KoeParser.can_parse (p : KoeParser) (fs : FileSystem) : Bool × KoeParser :=
  match p._can_parse_cache with
  | some b => (b, p)
  | none =>
      let file_names := wavFileNames fs
      match fs.metadata with
      | none => (false, { p with _can_parse_cache := some false })
      | some md =>
          let p := { p with _metadata := some md }
          if md.header ≠ expectedHeader then
            (false, { p with _can_parse_cache := some false })
          else
            let metadata_file_names := md.rows.map Row.filename
            if ¬ listSetEq file_names metadata_file_names then
              (false, { p with _can_parse_cache := some false })
            else
              (true, { p with
                        _data := some md.rows
                        _label_map_cache := some (labelMapLoop [] md.rows)
                        _numfolds := some (numFoldsLoop 0 md.rows + 1)
                        _can_parse_cache := some true })

/-- The `IOError` message raised by the accessors. -/
def ioMsg (basedir : String) : String := "unable to parse Koe dataset at " ++ basedir

/-- `KoeParser.num_instances`. -/
def KoeParser.num_instances (p : KoeParser) (fs : FileSystem) :
    Except PError Nat × KoeParser :=
  match p.can_parse fs with
  | (false, q) => (Except.error (PError.ioError (ioMsg q.basedir)), q)
  | (true, q) => (Except.ok ((q._data.getD []).length), q)

/-- `KoeParser.num_folds`. -/
def KoeParser.num_folds (p : KoeParser) (fs : FileSystem) :
    Except PError Nat × KoeParser :=
  match p.can_parse fs with
  | (false, q) => (Except.error (PError.ioError (ioMsg q.basedir)), q)
  | (true, q) => (Except.ok (q._numfolds.getD 0), q)

/-- `KoeParser.label_map`. -/
def KoeParser.label_map (p : KoeParser) (fs : FileSystem) :
    Except PError (List (String × Int)) × KoeParser :=
  match p.can_parse fs with
  | (false, q) => (Except.error (PError.ioError (ioMsg q.basedir)), q)
  | (true, q) => (Except.ok (q._label_map_cache.getD []), q)

/-- `os.path.join(basedir, filename)` for the cases that arise here. -/
def osPathJoin (a b : String) : String :=
  if strStartsWith b "/" then b
  else if a = "" ∨ strEndsWith a "/" then a ++ b
  else a ++ "/" ++ b

/-- The body of the `parse` loop for one row: resolve the path, build the
split vector (`[Split.TRAIN] * numfolds` then `cv_folds[fold] = Split.VALID`),
and emit the record with an unset partition field. -/
def materialize (basedir : String) (numfolds : Nat) (r : Row) : InstanceMetadata :=
  { path := osPathJoin basedir r.filename
    filename := r.filename
    label_nominal := r.label
    label_numeric := r.label_enum
    cv_folds := (List.replicate numfolds Split.TRAIN).set r.fold Split.VALID
    partition := none }

/-- `KoeParser.parse`. -/
def KoeParser.parse (p : KoeParser) (fs : FileSystem) :
    Except PError (List InstanceMetadata) × KoeParser :=
  match p.can_parse fs with
  | (false, q) => (Except.error (PError.ioError (ioMsg q.basedir)), q)
  | (true, q) =>
      (Except.ok ((q._data.getD []).map (materialize q.basedir (q._numfolds.getD 0))), q)

end Audeep

namespace Audeep

/-! ### Unfolding lemmas for `can_parse` from the freshly-constructed parser -/

theorem can_parse_cached (p : KoeParser) (fs : FileSystem) (b : Bool)
    (h : p._can_parse_cache = some b) : p.can_parse fs = (b, p) := by
  simp [KoeParser.can_parse, h]

theorem can_parse_init_no_meta (bd : String) (fs : FileSystem)
    (h : fs.metadata = none) :
    (initParser bd).can_parse fs =
      (false, { initParser bd with _can_parse_cache := some false }) := by
  simp [KoeParser.can_parse, initParser, h]

theorem can_parse_init_bad_header (bd : String) (fs : FileSystem) (md : Table)
    (h : fs.metadata = some md) (hh : md.header ≠ expectedHeader) :
    (initParser bd).can_parse fs =
      (false, { initParser bd with _metadata := some md
                                   _can_parse_cache := some false }) := by
  simp [KoeParser.can_parse, initParser, h, hh]

theorem can_parse_init_bad_set (bd : String) (fs : FileSystem) (md : Table)
    (h : fs.metadata = some md) (hh : md.header = expectedHeader)
    (hs : listSetEq (wavFileNames fs) (md.rows.map Row.filename) = false) :
    (initParser bd).can_parse fs =
      (false, { initParser bd with _metadata := some md
                                   _can_parse_cache := some false }) := by
  simp [KoeParser.can_parse, initParser, h, hh, hs]

theorem can_parse_init_ok (bd : String) (fs : FileSystem) (md : Table)
    (h : fs.metadata = some md) (hh : md.header = expectedHeader)
    (hs : listSetEq (wavFileNames fs) (md.rows.map Row.filename) = true) :
    (initParser bd).can_parse fs =
      (true, { basedir := bd
               _data := some md.rows
               _metadata := some md
               _label_map_cache := some (labelMapLoop [] md.rows)
               _can_parse_cache := some true
               _numfolds := some (numFoldsLoop 0 md.rows + 1) }) := by
  simp [KoeParser.can_parse, initParser, h, hh, hs]

theorem can_parse_init_true_iff (bd : String) (fs : FileSystem) :
    ((initParser bd).can_parse fs).1 = true ↔
      ∃ md, fs.metadata = some md ∧ md.header = expectedHeader ∧
        listSetEq (wavFileNames fs) (md.rows.map Row.filename) = true := by
  cases hmd : fs.metadata with
  | none => simp [can_parse_init_no_meta bd fs hmd, hmd]
  | some md =>
      by_cases hh : md.header = expectedHeader
      · cases hs : listSetEq (wavFileNames fs) (md.rows.map Row.filename) with
        | false => simp [can_parse_init_bad_set bd fs md hmd hh hs, hmd, hh, hs]
        | true => simp [can_parse_init_ok bd fs md hmd hh hs, hmd, hh, hs]
      · simp [can_parse_init_bad_header bd fs md hmd hh, hmd, hh]

/-! ### Set-equality and sorting helpers -/

theorem listSetEq_iff (a b : List String) :
    listSetEq a b = true ↔ ∀ x, x ∈ a ↔ x ∈ b := by
  simp only [listSetEq, Bool.and_eq_true, List.all_eq_true,
    List.contains_iff_exists_mem_beq, beq_iff_eq]
  constructor
  · rintro ⟨h1, h2⟩ x
    constructor
    · intro hx; obtain ⟨y, hy, rfl⟩ := h1 x hx; exact hy
    · intro hx; obtain ⟨y, hy, rfl⟩ := h2 x hx; exact hy
  · intro h
    exact ⟨fun x hx => ⟨x, (h x).mp hx, rfl⟩, fun x hx => ⟨x, (h x).mpr hx, rfl⟩⟩

theorem mem_insertSorted (x y : String) (l : List String) :
    y ∈ insertSorted x l ↔ y = x ∨ y ∈ l := by
  induction l with
  | nil => simp [insertSorted]
  | cons z zs ih =>
      cases h : strLe x z
      · simp [insertSorted, h, ih]; tauto
      · simp [insertSorted, h]

theorem mem_sortByName (x : String) (l : List String) :
    x ∈ sortByName l ↔ x ∈ l := by
  induction l with
  | nil => simp [sortByName]
  | cons y ys ih =>
      simp only [sortByName, List.foldr_cons] at ih ⊢
      rw [mem_insertSorted]
      simp [ih]

theorem mem_wavFileNames (x : String) (fs : FileSystem) :
    x ∈ wavFileNames fs ↔ x ∈ fs.diskFiles.filter isWavName := by
  simpa [wavFileNames] using mem_sortByName x (fs.diskFiles.filter isWavName)

end Audeep

namespace Audeep

/-! ### Fold-count loop lemmas -/

theorem numFoldsStep_le (a : Nat) (r : Row) : a ≤ numFoldsStep a r := by
  unfold numFoldsStep; split <;> omega

theorem fold_le_numFoldsStep (a : Nat) (r : Row) : r.fold ≤ numFoldsStep a r := by
  unfold numFoldsStep; split <;> omega

theorem numFoldsLoop_le (a : Nat) (l : List Row) : a ≤ numFoldsLoop a l := by
  induction l generalizing a with
  | nil => simp [numFoldsLoop]
  | cons r rs ih =>
      calc a ≤ numFoldsStep a r := numFoldsStep_le a r
        _ ≤ numFoldsLoop (numFoldsStep a r) rs := ih _
        _ = numFoldsLoop a (r :: rs) := rfl

theorem fold_le_numFoldsLoop (a : Nat) (l : List Row) (r : Row) (h : r ∈ l) :
    r.fold ≤ numFoldsLoop a l := by
  induction l generalizing a with
  | nil => cases h
  | cons s ss ih =>
      rcases List.mem_cons.mp h with rfl | hmem
      · calc r.fold ≤ numFoldsStep a r := fold_le_numFoldsStep a r
          _ ≤ numFoldsLoop (numFoldsStep a r) ss := numFoldsLoop_le _ _
          _ = numFoldsLoop a (r :: ss) := rfl
      · show r.fold ≤ numFoldsLoop (numFoldsStep a s) ss
        exact ih _ hmem

theorem numFoldsLoop_eq_or_mem (a : Nat) (l : List Row) :
    numFoldsLoop a l = a ∨ ∃ r ∈ l, numFoldsLoop a l = r.fold := by
  induction l generalizing a with
  | nil => left; rfl
  | cons s ss ih =>
      have hstep : numFoldsLoop a (s :: ss) = numFoldsLoop (numFoldsStep a s) ss := rfl
      rcases ih (numFoldsStep a s) with h | ⟨r, hr, he⟩
      · by_cases hc : s.fold > a
        · right
          refine ⟨s, List.mem_cons_self s ss, ?_⟩
          rw [hstep, h]; unfold numFoldsStep; simp [hc]
        · left
          rw [hstep, h]; unfold numFoldsStep; simp [hc]
      · right
        exact ⟨r, List.mem_cons_of_mem s hr, by rw [hstep, he]⟩

/-- For a nonempty row list, the fold-count accumulator value is attained:
it is the fold value of some row, and bounds all fold values. -/
theorem numFoldsLoop_is_max (l : List Row) (h : l ≠ []) :
    numFoldsLoop 0 l ∈ l.map Row.fold ∧ ∀ x ∈ l.map Row.fold, x ≤ numFoldsLoop 0 l := by
  constructor
  · rcases numFoldsLoop_eq_or_mem 0 l with h0 | ⟨r, hr, he⟩
    · cases l with
      | nil => exact absurd rfl h
      | cons s ss =>
          have hs : s.fold ≤ numFoldsLoop 0 (s :: ss) :=
            fold_le_numFoldsLoop 0 (s :: ss) s (List.mem_cons_self s ss)
          have heq : s.fold = numFoldsLoop 0 (s :: ss) := by omega
          exact List.mem_map.mpr ⟨s, List.mem_cons_self s ss, heq⟩
    · exact List.mem_map.mpr ⟨r, hr, he.symm⟩
  · intro x hx
    obtain ⟨r, hr, rfl⟩ := List.mem_map.mp hx
    exact fold_le_numFoldsLoop 0 l r hr

/-! ### Label-map loop lemmas -/

theorem lookup_append_int (key : String) (a b : List (String × Int)) :
    List.lookup key (a ++ b) =
      match List.lookup key a with
      | some v => some v
      | none => List.lookup key b := by
  induction a with
  | nil => simp [List.lookup]
  | cons e es ih =>
      obtain ⟨k, v⟩ := e
      cases h : (key == k)
      · simp only [List.cons_append, List.lookup, h]
        exact ih
      · simp [List.lookup, h]

theorem any_key_iff_lookup_isSome (key : String) (acc : List (String × Int)) :
    acc.any (fun e => e.1 == key) = true ↔ (List.lookup key acc).isSome := by
  induction acc with
  | nil => simp [List.lookup]
  | cons e es ih =>
      obtain ⟨k, v⟩ := e
      by_cases h : k = key
      · subst h; simp [List.lookup]
      · have h1 : (k == key) = false := by simpa using h
        have h2 : (key == k) = false := by simpa using Ne.symm h
        simp only [List.any_cons, h1, Bool.false_or, List.lookup, h2]
        exact ih

theorem lookup_labelMapLoop_some (key : String) (v : Int)
    (acc : List (String × Int)) (l : List Row)
    (h : List.lookup key acc = some v) :
    List.lookup key (labelMapLoop acc l) = some v := by
  induction l generalizing acc with
  | nil => simpa [labelMapLoop] using h
  | cons r rs ih =>
      show List.lookup key (labelMapLoop (labelMapStep acc r) rs) = some v
      apply ih
      unfold labelMapStep
      split
      · exact h
      · rw [lookup_append_int, h]

theorem lookup_labelMapLoop_none (key : String)
    (acc : List (String × Int)) (l : List Row)
    (h : List.lookup key acc = none) :
    List.lookup key (labelMapLoop acc l) =
      (l.find? (fun r => r.label == key)).map Row.label_enum := by
  induction l generalizing acc with
  | nil => simpa [labelMapLoop] using h
  | cons r rs ih =>
      show List.lookup key (labelMapLoop (labelMapStep acc r) rs) = _
      by_cases hk : r.label = key
      · subst hk
        have hnotin : acc.any (fun e => e.1 == r.label) = false := by
          rw [← Bool.not_eq_true, any_key_iff_lookup_isSome, h]
          simp
        have hstep : labelMapStep acc r = acc ++ [(r.label, r.label_enum)] := by
          unfold labelMapStep
          rw [hnotin]
          simp
        have hlook : List.lookup r.label (acc ++ [(r.label, r.label_enum)]) =
            some r.label_enum := by
          rw [lookup_append_int, h]
          simp [List.lookup]
        rw [hstep, lookup_labelMapLoop_some r.label r.label_enum _ rs hlook]
        simp [List.find?]
      · have hke : (r.label == key) = false := by simpa using hk
        have hek : (key == r.label) = false := by simpa using Ne.symm hk
        rw [List.find?_cons_of_neg _ (by simp [hke])]
        show List.lookup key (labelMapLoop (labelMapStep acc r) rs) = _
        unfold labelMapStep
        split
        · exact ih acc h
        · apply ih
          rw [lookup_append_int, h]
          simp [List.lookup, hek]

/-! ### Split-vector lemmas -/

theorem splitVector_length (n f : Nat) :
    ((List.replicate n Split.TRAIN).set f Split.VALID).length = n := by
  simp

theorem splitVector_getElem (n f j : Nat) (hf : f < n) :
    ((List.replicate n Split.TRAIN).set f Split.VALID)[j]? =
      if j < n then some (if j = f then Split.VALID else Split.TRAIN) else none := by
  rw [List.getElem?_set]
  by_cases hj : j < n
  · by_cases he : f = j
    · subst he; simp [hf, hj]
    · simp [he, hj, Ne.symm he, List.getElem?_replicate]
  · have he : f ≠ j := by omega
    simp [he, hj, List.getElem?_replicate]

theorem splitVector_count (n f : Nat) (hf : f < n) :
    ((List.replicate n Split.TRAIN).set f Split.VALID).count Split.VALID = 1 := by
  induction n generalizing f with
  | zero => omega
  | succ m ih =>
      cases f with
      | zero =>
          simp [List.replicate_succ, List.set, List.count_cons, List.count_replicate]
      | succ g =>
          have hg : g < m := by omega
          simp only [List.replicate_succ, List.set, List.count_cons]
          rw [ih g hg]
          simp

end Audeep

namespace Audeep

/-! ### Accessor unfolding lemmas -/

theorem num_instances_false (p q : KoeParser) (fs : FileSystem)
    (h : p.can_parse fs = (false, q)) :
    p.num_instances fs = (Except.error (PError.ioError (ioMsg q.basedir)), q) := by
  simp [KoeParser.num_instances, h]

theorem num_instances_true (p q : KoeParser) (fs : FileSystem)
    (h : p.can_parse fs = (true, q)) :
    p.num_instances fs = (Except.ok ((q._data.getD []).length), q) := by
  simp [KoeParser.num_instances, h]

theorem num_folds_false (p q : KoeParser) (fs : FileSystem)
    (h : p.can_parse fs = (false, q)) :
    p.num_folds fs = (Except.error (PError.ioError (ioMsg q.basedir)), q) := by
  simp [KoeParser.num_folds, h]

theorem num_folds_true (p q : KoeParser) (fs : FileSystem)
    (h : p.can_parse fs = (true, q)) :
    p.num_folds fs = (Except.ok (q._numfolds.getD 0), q) := by
  simp [KoeParser.num_folds, h]

theorem label_map_false (p q : KoeParser) (fs : FileSystem)
    (h : p.can_parse fs = (false, q)) :
    p.label_map fs = (Except.error (PError.ioError (ioMsg q.basedir)), q) := by
  simp [KoeParser.label_map, h]

theorem label_map_true (p q : KoeParser) (fs : FileSystem)
    (h : p.can_parse fs = (true, q)) :
    p.label_map fs = (Except.ok (q._label_map_cache.getD []), q) := by
  simp [KoeParser.label_map, h]

theorem parse_false (p q : KoeParser) (fs : FileSystem)
    (h : p.can_parse fs = (false, q)) :
    p.parse fs = (Except.error (PError.ioError (ioMsg q.basedir)), q) := by
  simp [KoeParser.parse, h]

theorem parse_true (p q : KoeParser) (fs : FileSystem)
    (h : p.can_parse fs = (true, q)) :
    p.parse fs =
      (Except.ok ((q._data.getD []).map (materialize q.basedir (q._numfolds.getD 0))), q) := by
  simp [KoeParser.parse, h]

/-! ### Elimination lemmas for the two validation outcomes -/

theorem can_parse_init_true_elim (bd : String) (fs : FileSystem)
    (h : ((initParser bd).can_parse fs).1 = true) :
    ∃ md, fs.metadata = some md ∧ md.header = expectedHeader ∧
      listSetEq (wavFileNames fs) (md.rows.map Row.filename) = true ∧
      (initParser bd).can_parse fs =
        (true, { basedir := bd
                 _data := some md.rows
                 _metadata := some md
                 _label_map_cache := some (labelMapLoop [] md.rows)
                 _can_parse_cache := some true
                 _numfolds := some (numFoldsLoop 0 md.rows + 1) }) := by
  obtain ⟨md, hmd, hh, hs⟩ := (can_parse_init_true_iff bd fs).mp h
  exact ⟨md, hmd, hh, hs, can_parse_init_ok bd fs md hmd hh hs⟩

theorem can_parse_init_false_elim (bd : String) (fs : FileSystem)
    (h : ((initParser bd).can_parse fs).1 = false) :
    ∃ q, (initParser bd).can_parse fs = (false, q) ∧ q.basedir = bd ∧
      q._data = none ∧ q._label_map_cache = none ∧ q._numfolds = none ∧
      q._can_parse_cache = some false ∧ q._metadata = fs.metadata := by
  cases hmd : fs.metadata with
  | none =>
      refine ⟨_, can_parse_init_no_meta bd fs hmd, ?_⟩
      simp [initParser, hmd]
  | some md =>
      by_cases hh : md.header = expectedHeader
      · cases hs : listSetEq (wavFileNames fs) (md.rows.map Row.filename) with
        | false =>
            refine ⟨_, can_parse_init_bad_set bd fs md hmd hh hs, ?_⟩
            simp [initParser, hmd]
        | true =>
            rw [can_parse_init_ok bd fs md hmd hh hs] at h
            simp at h
      · refine ⟨_, can_parse_init_bad_header bd fs md hmd hh, ?_⟩
        simp [initParser, hmd]

/-! ### Concrete data sets used to instantiate the theorems -/

/-- Row `(1, a.wav, dog, 5, 0)`. -/
def exRow1 : Row := ⟨"1", "a.wav", "dog", 5, 0⟩

/-- Row `(2, b.wav, cat, 7, 2)`. -/
def exRow2 : Row := ⟨"2", "b.wav", "cat", 7, 2⟩

/-- Row `(3, c.wav, dog, 9, 1)`: same label as `exRow1` with a different code. -/
def exRow3 : Row := ⟨"3", "c.wav", "dog", 9, 1⟩

/-- A well-formed metadata table with three rows. -/
def exTable : Table := ⟨expectedHeader, [exRow1, exRow2, exRow3]⟩

/-- A directory with three matching wav files (validation succeeds). -/
def exFS : FileSystem := ⟨["b.wav", "a.wav", "c.wav", "metadata.tsv"], some exTable⟩

/-- A directory with no `metadata.tsv` (validation fails). -/
def exBadFS : FileSystem := ⟨["a.wav"], none⟩

/-- A directory with zero audio files and a header-only metadata table. -/
def emptyFS : FileSystem := ⟨[], some ⟨expectedHeader, []⟩⟩

end Audeep

namespace Audeep

/-! ### Claim theorems -/

/-- C4: `can_parse()` returns `false` exactly when the metadata file is
absent, or the header's column names and order do not equal
`[id, filename, label, label_enum, fold]`, or the set of audio filenames on
disk differs from the set of `filename` values in the table; it returns
`true` otherwise.  (In the embedding `can_parse` is a total function into
`Bool`, so no exception escapes the validation check in either case.) -/
theorem C4_can_parse_false_iff (bd : String) (fs : FileSystem) :
    ((initParser bd).can_parse fs).1 = false ↔
      (fs.metadata = none ∨
       ∃ md, fs.metadata = some md ∧
         (md.header ≠ expectedHeader ∨
          ¬ (∀ x, x ∈ fs.diskFiles.filter isWavName ↔ x ∈ md.rows.map Row.filename))) := by
  rw [← Bool.not_eq_true, can_parse_init_true_iff]
  constructor
  · intro h
    cases hmd : fs.metadata with
    | none => exact Or.inl rfl
    | some md =>
        right
        refine ⟨md, rfl, ?_⟩
        by_cases hh : md.header = expectedHeader
        · right
          intro hmem
          apply h
          refine ⟨md, hmd, hh, ?_⟩
          rw [listSetEq_iff]
          intro x
          rw [mem_wavFileNames]
          exact hmem x
        · exact Or.inl hh
  · rintro (hnone | ⟨md, hmd, hbad⟩) ⟨md', hmd', hh', hs'⟩
    · rw [hnone] at hmd'; cases hmd'
    · rw [hmd] at hmd'
      injection hmd' with he
      subst he
      rcases hbad with hh | hs
      · exact hh hh'
      · apply hs
        intro x
        rw [← mem_wavFileNames]
        exact (listSetEq_iff _ _).mp hs' x

/-- C9: a dataset with zero audio files and a metadata table holding only the
correct header passes validation; for it `num_instances` returns `0`,
`parse()` returns the empty sequence, and `num_folds` returns `1` (the
max-fold accumulator starts at `0`, so zero rows still give `0 + 1`). -/
theorem C9_empty_dataset (bd : String) :
    ((initParser bd).can_parse emptyFS).1 = true ∧
    ((initParser bd).num_instances emptyFS).1 = Except.ok 0 ∧
    ((initParser bd).parse emptyFS).1 = Except.ok [] ∧
    ((initParser bd).num_folds emptyFS).1 = Except.ok 1 :=
  ⟨rfl, rfl, rfl, rfl⟩

/-- C10: whenever `can_parse()` returns `false`, the cached row list, label
vocabulary and fold count remain unset as at construction; only the boolean
result cache is written, plus the raw parsed table exactly when the failure
occurred after the missing-file step (`q._metadata` equals the file-system's
table content, which is `none` precisely at the missing-file step). -/
theorem C10_frame_on_failure (bd : String) (fs : FileSystem) (q : KoeParser)
    (h : (initParser bd).can_parse fs = (false, q)) :
    q._data = none ∧ q._label_map_cache = none ∧ q._numfolds = none ∧
    q._can_parse_cache = some false ∧ q._metadata = fs.metadata ∧ q.basedir = bd := by
  have h1 : ((initParser bd).can_parse fs).1 = false := by rw [h]
  obtain ⟨q', hq', hbd, hdata, hlm, hnf, hcache, hmeta⟩ :=
    can_parse_init_false_elim bd fs h1
  have : q = q' := by
    have := h.symm.trans hq'
    injection this
  subst this
  exact ⟨hdata, hlm, hnf, hcache, hmeta, hbd⟩

/-- C10 witness: the frame property at a concrete directory with no
`metadata.tsv`. -/
theorem C10_witness :
    (((initParser "d").can_parse exBadFS).2)._data = none ∧
    (((initParser "d").can_parse exBadFS).2)._label_map_cache = none ∧
    (((initParser "d").can_parse exBadFS).2)._numfolds = none ∧
    (((initParser "d").can_parse exBadFS).2)._can_parse_cache = some false ∧
    (((initParser "d").can_parse exBadFS).2)._metadata = exBadFS.metadata ∧
    (((initParser "d").can_parse exBadFS).2).basedir = "d" :=
  C10_frame_on_failure "d" exBadFS _ rfl

/-- C5: when validation fails, each derived accessor and `parse()` returns the
`IOError` whose message names the dataset base directory; when validation
succeeds, every one of them returns a normal (`ok`) result. -/
theorem C5_accessor_contract (bd : String) (fs : FileSystem) :
    (((initParser bd).can_parse fs).1 = false →
       ((initParser bd).num_instances fs).1 =
         Except.error (PError.ioError ("unable to parse Koe dataset at " ++ bd)) ∧
       ((initParser bd).num_folds fs).1 =
         Except.error (PError.ioError ("unable to parse Koe dataset at " ++ bd)) ∧
       ((initParser bd).label_map fs).1 =
         Except.error (PError.ioError ("unable to parse Koe dataset at " ++ bd)) ∧
       ((initParser bd).parse fs).1 =
         Except.error (PError.ioError ("unable to parse Koe dataset at " ++ bd))) ∧
    (((initParser bd).can_parse fs).1 = true →
       (∃ n, ((initParser bd).num_instances fs).1 = Except.ok n) ∧
       (∃ n, ((initParser bd).num_folds fs).1 = Except.ok n) ∧
       (∃ m, ((initParser bd).label_map fs).1 = Except.ok m) ∧
       (∃ l, ((initParser bd).parse fs).1 = Except.ok l)) := by
  constructor
  · intro h
    obtain ⟨q, hq, hbd, -, -, -, -, -⟩ := can_parse_init_false_elim bd fs h
    rw [num_instances_false _ _ _ hq, num_folds_false _ _ _ hq,
      label_map_false _ _ _ hq, parse_false _ _ _ hq, hbd]
    exact ⟨rfl, rfl, rfl, rfl⟩
  · intro h
    obtain ⟨md, hmd, hh, hs, hcp⟩ := can_parse_init_true_elim bd fs h
    rw [num_instances_true _ _ _ hcp, num_folds_true _ _ _ hcp,
      label_map_true _ _ _ hcp, parse_true _ _ _ hcp]
    exact ⟨⟨_, rfl⟩, ⟨_, rfl⟩, ⟨_, rfl⟩, ⟨_, rfl⟩⟩

/-- C5 witness: the error branch at a directory missing `metadata.tsv`, and
the ok branch at a well-formed concrete dataset. -/
theorem C5_witness :
    (((initParser "d").num_instances exBadFS).1 =
       Except.error (PError.ioError ("unable to parse Koe dataset at " ++ "d")) ∧
     ((initParser "d").num_folds exBadFS).1 =
       Except.error (PError.ioError ("unable to parse Koe dataset at " ++ "d")) ∧
     ((initParser "d").label_map exBadFS).1 =
       Except.error (PError.ioError ("unable to parse Koe dataset at " ++ "d")) ∧
     ((initParser "d").parse exBadFS).1 =
       Except.error (PError.ioError ("unable to parse Koe dataset at " ++ "d"))) ∧
    ((∃ n, ((initParser "d").num_instances exFS).1 = Except.ok n) ∧
     (∃ n, ((initParser "d").num_folds exFS).1 = Except.ok n) ∧
     (∃ m, ((initParser "d").label_map exFS).1 = Except.ok m) ∧
     (∃ l, ((initParser "d").parse exFS).1 = Except.ok l)) :=
  ⟨(C5_accessor_contract "d" exBadFS).1 rfl, (C5_accessor_contract "d" exFS).2 rfl⟩

/-- C6: the first `can_parse()` call fixes the boolean result and the cached
state; afterwards `can_parse()` on any file-system snapshot returns the same
boolean with the state unchanged, and `parse()` gives the same result on any
two snapshots (so mutating the on-disk table after the first validation
changes nothing), without touching the parser state. -/
theorem C6_memoization (bd : String) (fs fs1 fs2 : FileSystem) (b : Bool)
    (q : KoeParser) (h : (initParser bd).can_parse fs = (b, q)) :
    q.can_parse fs1 = (b, q) ∧
    q.parse fs1 = q.parse fs2 ∧
    (q.parse fs1).2 = q := by
  have hb : ((initParser bd).can_parse fs).1 = b := by rw [h]
  have hcache : q._can_parse_cache = some b := by
    cases b with
    | false =>
        obtain ⟨q', hq', -, -, -, -, hc, -⟩ := can_parse_init_false_elim bd fs hb
        have : q = q' := by
          have := h.symm.trans hq'
          injection this
        rw [this]; exact hc
    | true =>
        obtain ⟨md, hmd, hh, hs, hcp⟩ := can_parse_init_true_elim bd fs hb
        have := h.symm.trans hcp
        injection this with h1 h2
        rw [h2]
  have h1 : q.can_parse fs1 = (b, q) := can_parse_cached q fs1 b hcache
  have h2 : q.can_parse fs2 = (b, q) := can_parse_cached q fs2 b hcache
  cases b with
  | false =>
      rw [parse_false _ _ _ h1, parse_false _ _ _ h2]
      exact ⟨h1, rfl, rfl⟩
  | true =>
      rw [parse_true _ _ _ h1, parse_true _ _ _ h2]
      exact ⟨h1, rfl, rfl⟩

/-- C6 witness: after validating a concrete dataset, revalidating against a
directory missing the metadata file still returns `true` with the state
unchanged, and `parse()` agrees between two different mutated snapshots. -/
theorem C6_witness :
    (((initParser "d").can_parse exFS).2).can_parse exBadFS =
      (true, ((initParser "d").can_parse exFS).2) ∧
    (((initParser "d").can_parse exFS).2).parse exBadFS =
      (((initParser "d").can_parse exFS).2).parse emptyFS ∧
    ((((initParser "d").can_parse exFS).2).parse exBadFS).2 =
      ((initParser "d").can_parse exFS).2 :=
  C6_memoization "d" exFS exBadFS emptyFS true _ rfl

end Audeep

namespace Audeep

/-- C2: for a validated dataset with at least one row, `num_folds` returns one
plus the maximum fold value observed across all rows (whether or not every
index in that range is used). -/
theorem C2_num_folds_max_plus_one (bd : String) (fs : FileSystem) (md : Table)
    (hmd : fs.metadata = some md) (hne : md.rows ≠ [])
    (hok : ((initParser bd).can_parse fs).1 = true) :
    ∃ m : Nat, m ∈ md.rows.map Row.fold ∧ (∀ x ∈ md.rows.map Row.fold, x ≤ m) ∧
      ((initParser bd).num_folds fs).1 = Except.ok (m + 1) := by
  obtain ⟨md', hmd', hh, hs, hcp⟩ := can_parse_init_true_elim bd fs hok
  rw [hmd] at hmd'
  injection hmd' with he
  subst he
  obtain ⟨hmem, hmax⟩ := numFoldsLoop_is_max md.rows hne
  refine ⟨numFoldsLoop 0 md.rows, hmem, hmax, ?_⟩
  rw [num_folds_true _ _ _ hcp]
  rfl

/-- C2 witness: the concrete dataset with fold values `0, 2, 1` has
`num_folds = 2 + 1`. -/
theorem C2_witness :
    ∃ m : Nat, m ∈ exTable.rows.map Row.fold ∧ (∀ x ∈ exTable.rows.map Row.fold, x ≤ m) ∧
      ((initParser "d").num_folds exFS).1 = Except.ok (m + 1) :=
  C2_num_folds_max_plus_one "d" exFS exTable rfl (by decide) rfl

/-- C3: for a validated dataset, the label map binds each nominal label to the
numeric code of its first occurrence in table row order (looking a label up
yields exactly the `label_enum` of the first row carrying that label, so later
rows with the same label and a different code never overwrite it). -/
theorem C3_label_map_first_wins (bd : String) (fs : FileSystem) (md : Table)
    (hmd : fs.metadata = some md)
    (hok : ((initParser bd).can_parse fs).1 = true) :
    ∃ lm : List (String × Int), ((initParser bd).label_map fs).1 = Except.ok lm ∧
      ∀ key : String, List.lookup key lm =
        (md.rows.find? (fun r => r.label == key)).map Row.label_enum := by
  obtain ⟨md', hmd', hh, hs, hcp⟩ := can_parse_init_true_elim bd fs hok
  rw [hmd] at hmd'
  injection hmd' with he
  subst he
  refine ⟨labelMapLoop [] md.rows, ?_, ?_⟩
  · rw [label_map_true _ _ _ hcp]
    rfl
  · intro key
    exact lookup_labelMapLoop_none key [] md.rows rfl

/-- C3 witness: in the concrete dataset the label `dog` appears in row 1 with
code `5` and again in row 3 with code `9`; the map records `5`. -/
theorem C3_witness :
    ∃ lm : List (String × Int), ((initParser "d").label_map exFS).1 = Except.ok lm ∧
      ∀ key : String, List.lookup key lm =
        (exTable.rows.find? (fun r => r.label == key)).map Row.label_enum :=
  C3_label_map_first_wins "d" exFS exTable rfl rfl

/-- C7: for a validated dataset, `parse()` emits exactly one record per table
row, in table row order, carrying the row's filename, nominal label, numeric
label, the path obtained by joining the dataset directory with the filename,
and an unset partition field. -/
theorem C7_records_in_row_order (bd : String) (fs : FileSystem) (md : Table)
    (hmd : fs.metadata = some md)
    (hok : ((initParser bd).can_parse fs).1 = true) :
    ∃ l : List InstanceMetadata, ((initParser bd).parse fs).1 = Except.ok l ∧
      l.length = md.rows.length ∧
      ∀ (i : Nat) (r : Row) (m : InstanceMetadata),
        md.rows[i]? = some r → l[i]? = some m →
        m.filename = r.filename ∧ m.label_nominal = r.label ∧
        m.label_numeric = r.label_enum ∧ m.path = osPathJoin bd r.filename ∧
        m.partition = none := by
  obtain ⟨md', hmd', hh, hs, hcp⟩ := can_parse_init_true_elim bd fs hok
  rw [hmd] at hmd'
  injection hmd' with he
  subst he
  refine ⟨md.rows.map (materialize bd (numFoldsLoop 0 md.rows + 1)), ?_,
    List.length_map _ _, ?_⟩
  · rw [parse_true _ _ _ hcp]
    rfl
  · intro i r m hr hm
    rw [List.getElem?_map, hr] at hm
    injection hm with he2
    subst he2
    exact ⟨rfl, rfl, rfl, rfl, rfl⟩

/-- C7 witness: the record fields at the concrete three-row dataset. -/
theorem C7_witness :
    ∃ l : List InstanceMetadata, ((initParser "d").parse exFS).1 = Except.ok l ∧
      l.length = exTable.rows.length ∧
      ∀ (i : Nat) (r : Row) (m : InstanceMetadata),
        exTable.rows[i]? = some r → l[i]? = some m →
        m.filename = r.filename ∧ m.label_nominal = r.label ∧
        m.label_numeric = r.label_enum ∧ m.path = osPathJoin "d" r.filename ∧
        m.partition = none :=
  C7_records_in_row_order "d" exFS exTable rfl rfl

/-- C8: for a validated dataset, the set of filenames carried by the records
returned by `parse()` equals the set of audio file names (case-insensitive
`.wav` match) found on disk. -/
theorem C8_filename_roundtrip (bd : String) (fs : FileSystem)
    (hok : ((initParser bd).can_parse fs).1 = true) :
    ∃ l : List InstanceMetadata, ((initParser bd).parse fs).1 = Except.ok l ∧
      ∀ x : String,
        x ∈ l.map InstanceMetadata.filename ↔ x ∈ fs.diskFiles.filter isWavName := by
  obtain ⟨md, hmd, hh, hs, hcp⟩ := can_parse_init_true_elim bd fs hok
  refine ⟨md.rows.map (materialize bd (numFoldsLoop 0 md.rows + 1)), ?_, ?_⟩
  · rw [parse_true _ _ _ hcp]
    rfl
  · intro x
    have hset := (listSetEq_iff _ _).mp hs x
    rw [mem_wavFileNames] at hset
    rw [hset]
    simp [List.mem_map, materialize]

/-- C8 witness: the round-trip at the concrete three-file dataset. -/
theorem C8_witness :
    ∃ l : List InstanceMetadata, ((initParser "d").parse exFS).1 = Except.ok l ∧
      ∀ x : String,
        x ∈ l.map InstanceMetadata.filename ↔ x ∈ exFS.diskFiles.filter isWavName :=
  C8_filename_roundtrip "d" exFS rfl

/-- C1: for a validated dataset, every record returned by `parse()` carries a
split vector whose length equals the fold count, in which the position equal
to that record's own fold index holds VALID and every other position holds
TRAIN — hence exactly one VALID per record. -/
theorem C1_split_vectors (bd : String) (fs : FileSystem) (md : Table)
    (hmd : fs.metadata = some md)
    (hok : ((initParser bd).can_parse fs).1 = true) :
    ∃ (l : List InstanceMetadata) (nf : Nat),
      ((initParser bd).parse fs).1 = Except.ok l ∧
      ((initParser bd).num_folds fs).1 = Except.ok nf ∧
      l.length = md.rows.length ∧
      ∀ (i : Nat) (r : Row) (m : InstanceMetadata),
        md.rows[i]? = some r → l[i]? = some m →
        m.cv_folds.length = nf ∧ r.fold < nf ∧
        (∀ j : Nat, j < nf →
          m.cv_folds[j]? = some (if j = r.fold then Split.VALID else Split.TRAIN)) ∧
        m.cv_folds.count Split.VALID = 1 := by
  obtain ⟨md', hmd', hh, hs, hcp⟩ := can_parse_init_true_elim bd fs hok
  rw [hmd] at hmd'
  injection hmd' with he
  subst he
  refine ⟨md.rows.map (materialize bd (numFoldsLoop 0 md.rows + 1)),
    numFoldsLoop 0 md.rows + 1, ?_, ?_, List.length_map _ _, ?_⟩
  · rw [parse_true _ _ _ hcp]
    rfl
  · rw [num_folds_true _ _ _ hcp]
    rfl
  · intro i r m hr hm
    rw [List.getElem?_map, hr] at hm
    injection hm with he2
    subst he2
    have hrmem : r ∈ md.rows := List.getElem?_mem hr
    have hflt : r.fold < numFoldsLoop 0 md.rows + 1 :=
      Nat.lt_succ_of_le (fold_le_numFoldsLoop 0 md.rows r hrmem)
    simp only [materialize]
    refine ⟨splitVector_length _ _, hflt, ?_, splitVector_count _ _ hflt⟩
    intro j hj
    rw [splitVector_getElem _ _ _ hflt]
    simp [hj]

/-- C1 witness: the split vectors at the concrete three-row dataset with fold
values `0, 2, 1`. -/
theorem C1_witness :
    ∃ (l : List InstanceMetadata) (nf : Nat),
      ((initParser "d").parse exFS).1 = Except.ok l ∧
      ((initParser "d").num_folds exFS).1 = Except.ok nf ∧
      l.length = exTable.rows.length ∧
      ∀ (i : Nat) (r : Row) (m : InstanceMetadata),
        exTable.rows[i]? = some r → l[i]? = some m →
        m.cv_folds.length = nf ∧ r.fold < nf ∧
        (∀ j : Nat, j < nf →
          m.cv_folds[j]? = some (if j = r.fold then Split.VALID else Split.TRAIN)) ∧
        m.cv_folds.count Split.VALID = 1 :=
  C1_split_vectors "d" exFS exTable rfl rfl

end Audeep

namespace Audeep

/-- C4 witness: the characterization evaluated at a directory whose
`metadata.tsv` is missing. -/
theorem C4_witness :
    ((initParser "d").can_parse exBadFS).1 = false ↔
      (exBadFS.metadata = none ∨
       ∃ md, exBadFS.metadata = some md ∧
         (md.header ≠ expectedHeader ∨
          ¬ (∀ x, x ∈ exBadFS.diskFiles.filter isWavName ↔ x ∈ md.rows.map Row.filename))) :=
  C4_can_parse_false_iff "d" exBadFS

/-- C9 witness: the zero-file dataset behaviour at a concrete base directory. -/
theorem C9_witness :
    ((initParser "data").can_parse emptyFS).1 = true ∧
    ((initParser "data").num_instances emptyFS).1 = Except.ok 0 ∧
    ((initParser "data").parse emptyFS).1 = Except.ok [] ∧
    ((initParser "data").num_folds emptyFS).1 = Except.ok 1 :=
  C9_empty_dataset "data"

end Audeep
